import Mathlib

/-!
Shallow embedding of the Unscramble game (src/CIS17C_Project1/main.cpp).

Conventions of the embedding:
* C++ `int` values are modelled as `Int` (the program never approaches the
  machine bounds on its intended inputs); `size_t` counters as `Nat`.
* The dictionary file is modelled as the list of whitespace-delimited tokens
  it yields; a file that cannot be opened yields no tokens and leaves every
  extraction target untouched (C++ stream semantics: the sentry fails).
* `rand()` draws are passed in explicitly (as a value or a `Nat → Nat`
  stream); the `% length` reduction appears exactly where the source does it.
* Reading `words[count]` on a `std::array<string, 200>` with `count ≥ 200`
  is undefined behaviour; the embedding of `loadWords` returns
  `Except.error ()` at the point such an access is evaluated.
-/

namespace Unscramble

/-- Constant `maxWords` (main.cpp line 64): max words storage. -/
def maxWords : Nat := 200

/-- Constant `easyMinLength` (line 65). -/
def easyMinLength : Nat := 3

/-- Constant `easyMaxLength` (line 66). -/
def easyMaxLength : Nat := 5

/-- Constant `mediumMinLength` (line 67). -/
def mediumMinLength : Nat := 6

/-- Constant `mediumMaxLength` (line 68). -/
def mediumMaxLength : Nat := 8

/-- Constant `hardMinLength` (line 69). -/
def hardMinLength : Nat := 9

/-- Constant `hintCost` (line 70): points per hint. -/
def hintCost : Int := 1

/-- Constant `maxHintsPerWord` (line 71): max hints per word. -/
def maxHintsPerWord : Nat := 2

/-- `isEasyWord` (lines 323-327): word length within the easy range. -/
def isEasyWord (word : String) : Bool :=
  decide (easyMinLength ≤ word.length) && decide (word.length ≤ easyMaxLength)

/-- `isMediumWord` (lines 330-334): word length within the medium range. -/
def isMediumWord (word : String) : Bool :=
  decide (mediumMinLength ≤ word.length) && decide (word.length ≤ mediumMaxLength)

/-- `isHardWord` (lines 337-341): word length within the hard range. -/
def isHardWord (word : String) : Bool :=
  decide (hardMinLength ≤ word.length)

/-- `filterWordsByDifficulty` (lines 344-361): keeps, in order, the words of
the selected difficulty. The source writes matches into `filteredWords`
in increasing index order; the embedding returns that list of matches
(the first `wordCount` slots of the source array are the input list). -/
def filterWordsByDifficulty (words : List String) (difficulty : Int) : List String :=
  words.filter (fun w =>
    (difficulty == 1 && isEasyWord w) ||
    (difficulty == 2 && isMediumWord w) ||
    (difficulty == 3 && isHardWord w))

/-- Information revealed by a successful hint (`useHint`, lines 389-401). -/
inductive HintInfo
  | firstLetter (c : Char)
  | wordLength (n : Nat)
  | randomLetter (pos : Nat) (c : Char)
deriving DecidableEq

/-- Outcome of a `useHint` call. -/
inductive HintOutcome
  | limitReached
  | invalidChoice
  | granted (info : HintInfo)
deriving DecidableEq

/-- `useHint` (lines 374-416). `hintChoice` is the number read from the
player; `randValue` is the `rand()` draw used by choice 3. Returns the
outcome together with the new `hintsUsed` and `score`.
C++ `word[0]` on an empty string yields the null character; `List.getD`
with default `Char.ofNat 0` mirrors that. -/
def useHint (word : List Char) (hintsUsed : Nat) (score : Int)
    (hintChoice : Int) (randValue : Nat) : HintOutcome × Nat × Int :=
  if maxHintsPerWord ≤ hintsUsed then
    (.limitReached, hintsUsed, score)
  else
    let info? : Option HintInfo :=
      if hintChoice = 1 then
        some (.firstLetter (word.getD 0 (Char.ofNat 0)))
      else if hintChoice = 2 then
        some (.wordLength word.length)
      else if hintChoice = 3 then
        let randIndex := randValue % word.length
        some (.randomLetter (randIndex + 1) (word.getD randIndex (Char.ofNat 0)))
      else
        none
    match info? with
    | none => (.invalidChoice, hintsUsed, score)
    | some info => (.granted info, hintsUsed + 1, score - hintCost)

/-- The session score variables of `main` (lines 135-144), passed by
reference through `playGame`, `updateScore` and `handleGameOver`. -/
structure GameState where
  score : Int
  highestScore : Int
  streak : Nat
  maxStreak : Nat
deriving DecidableEq

/-- `updateScore` (lines 633-653): returns the new `(score, highestScore)`. -/
def updateScore (isCorrect : Bool) (score highestScore points : Int) : Int × Int :=
  if isCorrect then
    let score := score + points
    let highestScore := if score > highestScore then score else highestScore
    (score, highestScore)
  else
    (score - 1, highestScore)

/-- The correct-guess branch of `playGame` (lines 491-519): computes the
points (word length plus combo bonus), bumps the streak and max streak,
then calls `updateScore(true, ...)`. Returns the new state and the points. -/
def applyCorrectGuess (wordLength : Nat) (g : GameState) : GameState × Int :=
  let points : Int := (wordLength : Int)
  let comboBonus : Int := (g.streak : Int) * 2
  let points := points + comboBonus
  let streak := g.streak + 1
  let maxStreak := if streak > g.maxStreak then streak else g.maxStreak
  let sh := updateScore true g.score g.highestScore points
  ({ score := sh.1, highestScore := sh.2, streak := streak, maxStreak := maxStreak }, points)

/-- `handleGameOver` (lines 623-630): resets the score to zero. The
`correctWord` argument is only printed by the source. -/
def handleGameOver (g : GameState) : GameState :=
  { g with score := 0 }

/-- One iteration of the guessing loop of `playGame` (lines 474-529):
a "hint" input delegates to `useHint` without consuming an attempt; a
correct guess scores and ends the round; any other guess costs an attempt
and resets the streak. Returns the new game state, `attemptsLeft`,
`hintsUsed`, and the `wordGuessed` flag. -/
def guessStep (word guess : String) (g : GameState) (attemptsLeft : Int)
    (hintsUsed : Nat) (hintChoice : Int) (randValue : Nat) :
    GameState × Int × Nat × Bool :=
  if guess = "hint" then
    let r := useHint word.data hintsUsed g.score hintChoice randValue
    ({ g with score := r.2.2 }, attemptsLeft, r.2.1, false)
  else if guess = word then
    ((applyCorrectGuess word.length g).1, attemptsLeft, hintsUsed, true)
  else
    ({ g with streak := 0 }, attemptsLeft - 1, hintsUsed, false)

/-- The four achievement flags (lines 117-126), in declaration order:
"First Win", "Hint Master", "High Scorer", "Quick Thinker". All start
`false`. -/
structure AchievementState where
  firstWin : Bool
  hintMaster : Bool
  highScorer : Bool
  quickThinker : Bool
deriving DecidableEq

/-- The achievement array as initialised at startup: nothing achieved. -/
def initialAchievements : AchievementState :=
  { firstWin := false, hintMaster := false, highScorer := false, quickThinker := false }

/-- `updateAchievements` (lines 683-724): the four one-shot unlock checks. -/
def updateAchievements (wonGame : Bool) (score : Int) (hintsUsed : Nat)
    (timeTaken : Int) (a : AchievementState) : AchievementState :=
  let a := if wonGame && !a.firstWin then { a with firstWin := true } else a
  let a := if wonGame && (hintsUsed == 0) && !a.hintMaster then { a with hintMaster := true } else a
  let a := if decide (50 ≤ score) && !a.highScorer then { a with highScorer := true } else a
  let a := if wonGame && decide (timeTaken ≤ 30) && !a.quickThinker then { a with quickThinker := true } else a
  a

/-- The parameterless `playGame()` (lines 728-753), called at the top of
every main-loop iteration (line 168). It is the only caller of
`updateAchievements` in the program, and passes fixed placeholder values:
`wonGame = true`, `score = 0 + 10`, `hintsUsed = 0`, `timeTaken = 25`. -/
def playGamePlaceholder (a : AchievementState) : AchievementState :=
  updateAchievements true (0 + 10) 0 25 a

/-- The loop of `loadWords` (lines 583-600). Its condition
`file >> words[count] && count < maxWords` first evaluates `words[count]`
(an out-of-bounds access when `count` has reached the array size,
modelled as `Except.error ()`), then attempts extraction (which fails
exactly when the token stream is exhausted, ending the loop), and only
after a successful extraction checks `count < maxWords`. -/
def loadWordsAux (tokens : List String) (words : List String) (count : Nat) :
    Except Unit (List String × Nat) :=
  if count < words.length then
    match tokens with
    | [] => .ok (words, count)
    | t :: rest =>
      if count < maxWords then loadWordsAux rest (words.set count t) (count + 1)
      else .ok (words.set count t, count)
  else
    .error ()

/-- `loadWords` (lines 583-600): reads tokens into the backing array from
`startIndex` and returns the array and `count - startIndex`, the number
of words loaded. -/
def loadWords (tokens : List String) (words : List String) (startIndex : Nat) :
    Except Unit (List String × Nat) :=
  match loadWordsAux tokens words startIndex with
  | .ok (w, count) => .ok (w, count - startIndex)
  | .error e => .error e

/-- The `swap(anagram[j], anagram[k])` of `scrambleWord` (line 615) on the
list of characters; indices out of range leave the list unchanged (the
source only ever swaps in-range positions). -/
def swapList (l : List α) (i j : Nat) : List α :=
  match l[i]?, l[j]? with
  | some a, some b => (l.set i b).set j a
  | _, _ => l

/-- `scrambleWord` (lines 603-620): for each position `j` in order, swap
position `j` with `k = rand() % word.length()`. `randValues j` is the
`rand()` draw of iteration `j`. -/
def scrambleWord (word : List Char) (randValues : Nat → Nat) : List Char :=
  (List.range word.length).foldl
    (fun anagram j => swapList anagram j (randValues j % word.length)) word

/-! ## Theorems -/

/-- Claim C4: for every correct guess with word length `L` and streak `S`
immediately before the guess, the awarded points equal `L + 2×S`; the streak
increments by 1, `maxStreak` is updated if the new streak exceeds it, the
points are added to the score, and `highestScore` is updated if the score
now exceeds it. In particular `L = 5`, `S = 3` awards 11 points and the
streak becomes 4. -/
theorem applyCorrectGuess_spec :
    (∀ (g : GameState) (L : Nat),
      (applyCorrectGuess L g).2 = (L : Int) + 2 * (g.streak : Int) ∧
      (applyCorrectGuess L g).1.streak = g.streak + 1 ∧
      (applyCorrectGuess L g).1.maxStreak =
        (if g.streak + 1 > g.maxStreak then g.streak + 1 else g.maxStreak) ∧
      (applyCorrectGuess L g).1.score = g.score + ((L : Int) + 2 * (g.streak : Int)) ∧
      (applyCorrectGuess L g).1.highestScore =
        (if (applyCorrectGuess L g).1.score > g.highestScore
          then (applyCorrectGuess L g).1.score else g.highestScore)) ∧
    (applyCorrectGuess 5 { score := 0, highestScore := 0, streak := 3, maxStreak := 3 }).2 = 11 ∧
    (applyCorrectGuess 5 { score := 0, highestScore := 0, streak := 3, maxStreak := 3 }).1.streak = 4 := by
  refine ⟨fun g L => ?_, by decide, by decide⟩
  simp [applyCorrectGuess, updateScore]
  omega

/-- Claim C5: when a round ends with attempts exhausted, `handleGameOver`
resets the score to exactly 0, regardless of its prior value, including
negative prior scores. -/
theorem handleGameOver_spec :
    (∀ g : GameState, (handleGameOver g).score = 0) ∧
    (handleGameOver { score := -37, highestScore := 12, streak := 4, maxStreak := 6 }).score = 0 :=
  ⟨fun _ => rfl, rfl⟩

/-- Claim C6: `useHint` with `hintsUsed ≥ 2` fails with no hint granted,
`hintsUsed` unchanged and no score deduction; an invalid hint choice is
rejected with no state change; every successful hint increments `hintsUsed`
by exactly 1 and deducts exactly 1 point unconditionally (the score may go
negative). -/
theorem useHint_spec :
    (∀ (word : List Char) (hintsUsed : Nat) (score hintChoice : Int) (randValue : Nat),
        2 ≤ hintsUsed →
        useHint word hintsUsed score hintChoice randValue = (.limitReached, hintsUsed, score)) ∧
    (∀ (word : List Char) (hintsUsed : Nat) (score hintChoice : Int) (randValue : Nat),
        hintsUsed < 2 → hintChoice ≠ 1 → hintChoice ≠ 2 → hintChoice ≠ 3 →
        useHint word hintsUsed score hintChoice randValue = (.invalidChoice, hintsUsed, score)) ∧
    (∀ (word : List Char) (hintsUsed : Nat) (score hintChoice : Int) (randValue : Nat),
        hintsUsed < 2 → (hintChoice = 1 ∨ hintChoice = 2 ∨ hintChoice = 3) →
        ∃ info, useHint word hintsUsed score hintChoice randValue
          = (.granted info, hintsUsed + 1, score - 1)) := by
  refine ⟨?_, ?_, ?_⟩
  · intro word h s c r hh
    simp [useHint, maxHintsPerWord, hh]
  · intro word h s c r hh h1 h2 h3
    have hnot : ¬ (maxHintsPerWord ≤ h) := by simp only [maxHintsPerWord]; omega
    simp [useHint, hnot, h1, h2, h3]
  · intro word h s c r hh hc
    have hnot : ¬ (maxHintsPerWord ≤ h) := by simp only [maxHintsPerWord]; omega
    rcases hc with rfl | rfl | rfl
    · exact ⟨.firstLetter (word.getD 0 (Char.ofNat 0)), by simp [useHint, hnot, hintCost]⟩
    · exact ⟨.wordLength word.length, by simp [useHint, hnot, hintCost]⟩
    · exact ⟨.randomLetter (r % word.length + 1) (word.getD (r % word.length) (Char.ofNat 0)),
        by simp [useHint, hnot, hintCost]⟩

/-- Witness for C6: a third hint for the same word fails with no deduction;
an invalid choice changes nothing; a successful hint at score 0 drives the
score to -1 and bumps `hintsUsed` to 1. -/
theorem useHint_spec_witness :
    useHint ['c', 'a', 't'] 2 10 1 0 = (.limitReached, 2, 10) ∧
    useHint ['c', 'a', 't'] 0 10 7 0 = (.invalidChoice, 0, 10) ∧
    ∃ info, useHint ['c', 'a', 't'] 0 0 1 0 = (.granted info, 1, -1) :=
  ⟨useHint_spec.1 ['c', 'a', 't'] 2 10 1 0 (by decide),
   useHint_spec.2.1 ['c', 'a', 't'] 0 10 7 0 (by decide) (by decide) (by decide) (by decide),
   useHint_spec.2.2 ['c', 'a', 't'] 0 0 1 0 (by decide) (Or.inl rfl)⟩

/-- Claim C7: an incorrect (non-hint) guess decrements the remaining
attempts by exactly 1 and resets the streak to 0 regardless of its prior
value, while the score and the highest score are left unchanged. -/
theorem incorrectGuess_spec :
    ∀ (word guess : String) (g : GameState) (attemptsLeft : Int)
      (hintsUsed : Nat) (hintChoice : Int) (randValue : Nat),
      guess ≠ "hint" → guess ≠ word →
      (guessStep word guess g attemptsLeft hintsUsed hintChoice randValue).1.score = g.score ∧
      (guessStep word guess g attemptsLeft hintsUsed hintChoice randValue).1.highestScore
        = g.highestScore ∧
      (guessStep word guess g attemptsLeft hintsUsed hintChoice randValue).1.streak = 0 ∧
      (guessStep word guess g attemptsLeft hintsUsed hintChoice randValue).1.maxStreak
        = g.maxStreak ∧
      (guessStep word guess g attemptsLeft hintsUsed hintChoice randValue).2.1
        = attemptsLeft - 1 ∧
      (guessStep word guess g attemptsLeft hintsUsed hintChoice randValue).2.2.1 = hintsUsed ∧
      (guessStep word guess g attemptsLeft hintsUsed hintChoice randValue).2.2.2 = false := by
  intro word guess g a h c r h1 h2
  simp [guessStep, h1, h2]

/-- Witness for C7: a wrong guess at streak 2 leaves score 5 and highest
score 9 unchanged, zeroes the streak, and costs one attempt. -/
theorem incorrectGuess_spec_witness :
    (guessStep "cat" "dog" { score := 5, highestScore := 9, streak := 2, maxStreak := 2 }
        3 1 1 0).1.score = 5 ∧
    (guessStep "cat" "dog" { score := 5, highestScore := 9, streak := 2, maxStreak := 2 }
        3 1 1 0).1.highestScore = 9 ∧
    (guessStep "cat" "dog" { score := 5, highestScore := 9, streak := 2, maxStreak := 2 }
        3 1 1 0).1.streak = 0 ∧
    (guessStep "cat" "dog" { score := 5, highestScore := 9, streak := 2, maxStreak := 2 }
        3 1 1 0).1.maxStreak = 2 ∧
    (guessStep "cat" "dog" { score := 5, highestScore := 9, streak := 2, maxStreak := 2 }
        3 1 1 0).2.1 = 3 - 1 ∧
    (guessStep "cat" "dog" { score := 5, highestScore := 9, streak := 2, maxStreak := 2 }
        3 1 1 0).2.2.1 = 1 ∧
    (guessStep "cat" "dog" { score := 5, highestScore := 9, streak := 2, maxStreak := 2 }
        3 1 1 0).2.2.2 = false :=
  incorrectGuess_spec "cat" "dog" { score := 5, highestScore := 9, streak := 2, maxStreak := 2 }
    3 1 1 0 (by decide) (by decide)

/-- Claim C9: classification is a pure function of word length with Easy =
lengths 3..5, Medium = 6..8, Hard = 9 and above, and no band for lengths
below 3; filtering by a band returns the order-preserving subsequence of
exactly the words classified into that band (so it is empty when none
match). -/
theorem difficulty_classification_spec :
    (∀ w : String,
        (isEasyWord w = true ↔ 3 ≤ w.length ∧ w.length ≤ 5) ∧
        (isMediumWord w = true ↔ 6 ≤ w.length ∧ w.length ≤ 8) ∧
        (isHardWord w = true ↔ 9 ≤ w.length)) ∧
    (∀ w : String, w.length < 3 →
        isEasyWord w = false ∧ isMediumWord w = false ∧ isHardWord w = false) ∧
    (∀ (words : List String) (difficulty : Int),
        (filterWordsByDifficulty words difficulty).Sublist words) ∧
    (∀ (words : List String) (w : String),
        (w ∈ filterWordsByDifficulty words 1 ↔ w ∈ words ∧ 3 ≤ w.length ∧ w.length ≤ 5) ∧
        (w ∈ filterWordsByDifficulty words 2 ↔ w ∈ words ∧ 6 ≤ w.length ∧ w.length ≤ 8) ∧
        (w ∈ filterWordsByDifficulty words 3 ↔ w ∈ words ∧ 9 ≤ w.length)) := by
  have e11 : ((1 : Int) == 1) = true := by decide
  have e12 : ((1 : Int) == 2) = false := by decide
  have e13 : ((1 : Int) == 3) = false := by decide
  have e21 : ((2 : Int) == 1) = false := by decide
  have e22 : ((2 : Int) == 2) = true := by decide
  have e23 : ((2 : Int) == 3) = false := by decide
  have e31 : ((3 : Int) == 1) = false := by decide
  have e32 : ((3 : Int) == 2) = false := by decide
  have e33 : ((3 : Int) == 3) = true := by decide
  refine ⟨?_, ?_, ?_, ?_⟩
  · intro w
    refine ⟨?_, ?_, ?_⟩ <;>
      simp [isEasyWord, isMediumWord, isHardWord, easyMinLength, easyMaxLength,
        mediumMinLength, mediumMaxLength, hardMinLength]
  · intro w hw
    refine ⟨?_, ?_, ?_⟩ <;>
      · simp [isEasyWord, isMediumWord, isHardWord, easyMinLength, easyMaxLength,
          mediumMinLength, mediumMaxLength, hardMinLength]
        omega
  · intro words difficulty
    exact List.filter_sublist words
  · intro words w
    refine ⟨?_, ?_, ?_⟩ <;>
      simp [filterWordsByDifficulty, List.mem_filter, e11, e12, e13, e21, e22, e23,
        e31, e32, e33, isEasyWord, isMediumWord, isHardWord, easyMinLength, easyMaxLength,
        mediumMinLength, mediumMaxLength, hardMinLength, and_assoc]

/-- Witness for C9: a length-2 word falls in no band. -/
theorem difficulty_classification_spec_witness :
    isEasyWord "ab" = false ∧ isMediumWord "ab" = false ∧ isHardWord "ab" = false :=
  difficulty_classification_spec.2.1 "ab" (by decide)

/-- The placeholder driver never changes the "High Scorer" flag: it always
passes `score = 0 + 10`, and `50 ≤ 10` is false, while the other three
branches touch only their own flags. -/
theorem playGamePlaceholder_highScorer (a : AchievementState) :
    (playGamePlaceholder a).highScorer = a.highScorer := by
  cases a with
  | mk f h hs q =>
    simp only [playGamePlaceholder, updateAchievements]
    split <;> split <;> split <;> split <;> simp_all

/-- Claim C1 (code bug): in the program, `updateAchievements` is only ever
invoked by the placeholder `playGame()` at the top of each main-loop
iteration with the fixed arguments `(true, 10, 0, 25)`; therefore the
"First Win" achievement is already unlocked after the first iteration,
before any round has been played — let alone won. -/
theorem firstWin_unlocked_without_any_round :
    initialAchievements.firstWin = false ∧
    (playGamePlaceholder initialAchievements).firstWin = true := by
  decide

/-- Claim C2 (code bug): because the only call site of `updateAchievements`
passes the placeholder score `0 + 10` (never the session score), the
"High Scorer" flag remains `false` after any number of main-loop
iterations, no matter how high the session score climbs. -/
theorem highScorer_never_unlocked :
    ∀ n : Nat, (playGamePlaceholder^[n] initialAchievements).highScorer = false := by
  intro n
  induction n with
  | zero => rfl
  | succ n ih => rw [Function.iterate_succ_apply', playGamePlaceholder_highScorer, ih]

/-- The `loadWords` loop reaches the out-of-bounds access whenever the
backing array holds 200 slots and the token stream is long enough to drive
`count` to 200: at that point the loop condition evaluates `words[200]`
before checking `count < maxWords`. -/
theorem loadWordsAux_reaches_oob :
    ∀ (tokens words : List String) (count : Nat),
      words.length = 200 → count ≤ 200 → 200 ≤ count + tokens.length →
      loadWordsAux tokens words count = .error () := by
  intro tokens
  induction tokens with
  | nil =>
    intro words count hw hc hlen
    simp only [List.length_nil, Nat.add_zero] at hlen
    rw [loadWordsAux, if_neg (by omega)]
  | cons t rest ih =>
    intro words count hw hc hlen
    simp only [List.length_cons] at hlen
    by_cases h : count < words.length
    · rw [loadWordsAux, if_pos h]
      have hm : count < maxWords := by rw [hw] at h; exact h
      simp only [hm, if_pos]
      exact ih (words.set count t) (count + 1) (by simp [hw]) (by omega) (by omega)
    · rw [loadWordsAux, if_neg h]

/-- Claim C3 (code bug): loading 200 tokens into the empty 200-slot store
drives `count` to 200, and the next evaluation of the loop condition
`file >> words[count] && count < maxWords` accesses `words[200]` — outside
the 200-entry backing array (modelled as `Except.error ()`) — because the
capacity test comes after the access, not before it. -/
theorem loadWords_capacity_oob :
    loadWords (List.replicate 200 "a") (List.replicate 200 "") 0 = .error () := by
  have h := loadWordsAux_reaches_oob (List.replicate 200 "a") (List.replicate 200 "") 0
    (by rw [List.length_replicate]) (by omega) (by rw [List.length_replicate])
  unfold loadWords
  rw [h]

/-- Counterexample to claim C10 as stated: with a full store (all 200 slots
occupied, `startIndex = 200`), a load from an unopenable source (no tokens)
evaluates `words[200]` — an out-of-bounds access — instead of returning 0
words loaded with the store unchanged. -/
theorem loadWords_full_store_oob :
    loadWords [] (List.replicate 200 "w") 200 = .error () := by
  have h := loadWordsAux_reaches_oob [] (List.replicate 200 "w") 200
    (by rw [List.length_replicate]) (by omega) (by simp)
  unfold loadWords
  rw [h]

/-- Claim C10 (amended): for every store state holding fewer words than the
backing array's 200-slot capacity, loading from a source that cannot be
opened (which yields no tokens and touches no extraction target) returns 0
words loaded and leaves the stored words unchanged. -/
theorem loadWords_missing_file (words : List String) (startIndex : Nat)
    (h : startIndex < words.length) :
    loadWords [] words startIndex = .ok (words, 0) := by
  rw [loadWords, loadWordsAux, if_pos h]
  simp

/-- Witness for C10 (amended): a store holding two words, loading at
offset 1 from a missing file. -/
theorem loadWords_missing_file_witness :
    loadWords [] ["cat", "dog"] 1 = .ok (["cat", "dog"], 0) :=
  loadWords_missing_file ["cat", "dog"] 1 (by decide)

/-- Pulling the `k`-th element of a list to the front while writing `a`
into its slot is a permutation of consing `a` instead. -/
theorem get_cons_set_perm (t : List α) (k : Nat) (g a : α) (hg : t[k]? = some g) :
    List.Perm (g :: t.set k a) (a :: t) := by
  induction t generalizing k with
  | nil => simp at hg
  | cons b t' ih =>
    cases k with
    | zero =>
      simp only [List.getElem?_cons_zero, Option.some.injEq] at hg
      subst hg
      simp only [List.set_cons_zero]
      exact List.Perm.swap a b t'
    | succ k =>
      simp only [List.getElem?_cons_succ] at hg
      simp only [List.set_cons_succ]
      have h1 : List.Perm (g :: b :: t'.set k a) (b :: g :: t'.set k a) :=
        List.Perm.swap b g _
      have h2 : List.Perm (b :: g :: t'.set k a) (b :: a :: t') :=
        List.Perm.cons b (ih k hg)
      have h3 : List.Perm (b :: a :: t') (a :: b :: t') := List.Perm.swap a b t'
      exact (h1.trans h2).trans h3

/-- Writing each of two in-range entries into the other's slot permutes
the list. -/
theorem set_set_perm :
    ∀ (l : List α) (i j : Nat) (a b : α), l[i]? = some a → l[j]? = some b →
      List.Perm ((l.set i b).set j a) l := by
  intro l
  induction l with
  | nil => intro i j a b hi _; simp at hi
  | cons x t ih =>
    intro i j a b hi hj
    cases i with
    | zero =>
      simp only [List.getElem?_cons_zero, Option.some.injEq] at hi
      subst hi
      cases j with
      | zero =>
        simp only [List.getElem?_cons_zero, Option.some.injEq] at hj
        subst hj
        simp only [List.set_cons_zero]
        exact List.Perm.refl _
      | succ k =>
        simp only [List.getElem?_cons_succ] at hj
        simp only [List.set_cons_zero, List.set_cons_succ]
        exact get_cons_set_perm t k b x hj
    | succ m =>
      simp only [List.getElem?_cons_succ] at hi
      cases j with
      | zero =>
        simp only [List.getElem?_cons_zero, Option.some.injEq] at hj
        subst hj
        simp only [List.set_cons_succ, List.set_cons_zero]
        exact get_cons_set_perm t m a x hi
      | succ k =>
        simp only [List.getElem?_cons_succ] at hi hj
        simp only [List.set_cons_succ]
        exact List.Perm.cons x (ih m k a b hi hj)

/-- A single `swap(anagram[j], anagram[k])` permutes the list (and is the
identity when an index is out of range). -/
theorem swapList_perm (l : List α) (i j : Nat) : List.Perm (swapList l i j) l := by
  unfold swapList
  split
  · rename_i a b hi hj
    exact set_set_perm l i j a b hi hj
  · exact List.Perm.refl l

/-- A fold of permutation-preserving steps permutes the start list. -/
theorem foldl_swap_perm (f : List α → Nat → List α)
    (hf : ∀ acc j, List.Perm (f acc j) acc) :
    ∀ (idxs : List Nat) (l : List α), List.Perm (idxs.foldl f l) l := by
  intro idxs
  induction idxs with
  | nil => intro l; exact List.Perm.refl l
  | cons j rest ih =>
    intro l
    simp only [List.foldl_cons]
    exact (ih (f l j)).trans (hf l j)

/-- Claim C8: for every word and every stream of `rand()` draws,
`scrambleWord` returns a list with exactly the same character multiset
(a permutation of the word's characters), produced by swapping each
position `j` with position `rand() % length`; and the result may equal the
original word (here: identity draws on "cat" return "cat" unchanged). -/
theorem scrambleWord_perm :
    (∀ (word : List Char) (randValues : Nat → Nat),
        List.Perm (scrambleWord word randValues) word) ∧
    scrambleWord ['c', 'a', 't'] (fun j => j) = ['c', 'a', 't'] := by
  constructor
  · intro word randValues
    unfold scrambleWord
    exact foldl_swap_perm _ (fun acc j => swapList_perm acc j _) _ word
  · rfl

end Unscramble
